import Mathlib

/-!
Verification of the analytical core of the `consus` dashboard (src/data.py)
against its natural-language specification.

The pandas program is shallowly embedded:
a `Table` is an ordered list of named columns; each column carries the pandas
dtype it is stored under (`float64`-like numeric, `object`, `datetime64`) and an
ordered list of cells.  Machine floats are modelled by exact rationals; where
the source relies on IEEE special values (division by a zero mean giving
infinity, `0/0` giving NaN, `str(nan) = "nan"`), the embedding reproduces the
*comparison outcome* of that float computation with exact case analysis, noted
at each definition.  The element parsers of `pd.to_numeric` / `pd.to_datetime`
are embedded as concrete executable parsers covering the decimal and ISO-date
fragments actually exercised; `pd.to_numeric` parses the literal string "nan"
to a missing float exactly as C `strtod` does, which is load-bearing below.
-/

namespace Consus

/-- Cell values of a table: missing (NaN/None/NaT), a number, a text, a date. -/
inductive Cell
  | missing
  | num (q : ℚ)
  | text (s : String)
  | date (d : ℤ)
deriving DecidableEq

/-- Pandas storage dtype of a column. -/
inductive Dtype
  | numeric
  | object
  | datetime
deriving DecidableEq

/-- A named column: its pandas dtype and its ordered cells. -/
structure Col where
  name : String
  dtype : Dtype
  cells : List Cell
deriving DecidableEq

/-- A table is an ordered list of named columns, rows positionally aligned. -/
abbrev Table := List Col

def Cell.isMissing : Cell → Bool
  | .missing => true
  | _ => false

def Cell.numOf : Cell → Option ℚ
  | .num q => some q
  | _ => none

def Cell.textOf : Cell → Option String
  | .text s => some s
  | _ => none

/-- Number of rows: length of the first column (0 for a column-less table). -/
def rowCount (df : Table) : ℕ :=
  (df.head?.map (fun c => c.cells.length)).getD 0

/-- Well-formedness: every column has the common row count, cells agree with
the column dtype, and column names are distinct (a pandas DataFrame with
unique column labels). -/
def Col.wfCells (c : Col) : Bool :=
  match c.dtype with
  | .numeric => c.cells.all (fun x =>
      match x with | .missing => true | .num _ => true | _ => false)
  | .object => c.cells.all (fun x =>
      match x with | .missing => true | .text _ => true | _ => false)
  | .datetime => c.cells.all (fun x =>
      match x with | .missing => true | .date _ => true | _ => false)

def Table.wf (df : Table) : Prop :=
  (∀ c ∈ df, c.cells.length = rowCount df) ∧
  (∀ c ∈ df, c.wfCells = true) ∧ (df.map Col.name).Nodup

instance (df : Table) : Decidable df.wf := by
  unfold Table.wf; exact inferInstance

/-! ### Element parsers

`digitsVal` evaluates a digit string; `dateParses` recognises the ISO
`YYYY-MM-DD` fragment of the `pd.to_datetime` parser; `parseNumCore`
recognises the signed-decimal fragment of the `pd.to_numeric` element parser
(C `strtod`): optional minus sign, digits, optional point and fraction
digits.  `parseNum` additionally maps the literal "nan" to a parsed missing
value, as `strtod` does. -/

def digitsVal (l : List Char) : ℕ :=
  l.foldl (fun a c => a * 10 + (c.toNat - 48)) 0

def dateParses (s : String) : Bool :=
  match s.data with
  | [y1, y2, y3, y4, '-', m1, m2, '-', d1, d2] =>
      ([y1, y2, y3, y4, m1, m2, d1, d2]).all Char.isDigit &&
      decide (1 ≤ digitsVal [m1, m2]) && decide (digitsVal [m1, m2] ≤ 12) &&
      decide (1 ≤ digitsVal [d1, d2]) && decide (digitsVal [d1, d2] ≤ 31)
  | _ => false

/-- Day key of a parsed date (injective on well-formed dates). -/
def dateVal (s : String) : ℤ :=
  match s.data with
  | [y1, y2, y3, y4, _, m1, m2, _, d1, d2] =>
      (digitsVal [y1, y2, y3, y4] * 10000 + digitsVal [m1, m2] * 100 +
        digitsVal [d1, d2] : ℕ)
  | _ => 0

def parseNumCore (l : List Char) : Option ℚ :=
  let neg : Bool := match l with | '-' :: _ => true | _ => false
  let body := match l with | '-' :: t => t | t => t
  let ip := body.takeWhile Char.isDigit
  let rest := body.dropWhile Char.isDigit
  match rest with
  | [] =>
      if ip.isEmpty then none
      else some (if neg then -(digitsVal ip : ℚ) else (digitsVal ip : ℚ))
  | '.' :: fp =>
      if fp.all Char.isDigit && !(ip.isEmpty && fp.isEmpty) then
        some (if neg then -((digitsVal (ip ++ fp) : ℚ) / (10 : ℚ) ^ fp.length)
              else (digitsVal (ip ++ fp) : ℚ) / (10 : ℚ) ^ fp.length)
      else none
  | _ => none

/-- Element parse of `pd.to_numeric`: `none` = parse failure, `some none` =
parsed to NaN (the string "nan", accepted by `strtod`), `some (some q)` =
parsed to the number `q`. -/
def parseNum (s : String) : Option (Option ℚ) :=
  if s = "nan" then some none else (parseNumCore s.data).map some

/-- Embeds `str.replace(',', '')`: delete every comma of the text. -/
def stripCommas (s : String) : String :=
  ⟨s.data.filter (fun c => c ≠ ',')⟩

/-- Embeds `astype(str)` on one cell of an object column: NaN prints as "nan". -/
def cellStr : Cell → String
  | .missing => "nan"
  | .text s => s
  | .num q => toString q
  | .date _ => "date"

/-! ### detect_data_types (src/data.py lines 47-63) -/

/-- Holds when `pd.to_datetime(df[col].dropna().head(100))` succeeds: every value of the
sample of the first 100 non-missing cells parses as a date (vacuously true
for an all-missing column, whose sample is empty). -/
def datePromotable (c : Col) : Bool :=
  ((c.cells.filter (fun x => !x.isMissing)).take 100).all
    (fun x => match x with | Cell.text s => dateParses s | _ => false)

/-- Embedding of `detect_data_types`: numeric dtypes, object dtypes and
datetime dtypes, then object columns whose 100-value sample parses as dates
are moved from the categorical list to the end of the datetime list, in
original column order. -/
def detect_data_types (df : Table) :
    List String × List String × List String :=
  let numeric_cols := (df.filter (fun c => c.dtype = Dtype.numeric)).map Col.name
  let objectCols := df.filter (fun c => c.dtype = Dtype.object)
  let datetime0 := (df.filter (fun c => c.dtype = Dtype.datetime)).map Col.name
  let promoted := (objectCols.filter (fun c => datePromotable c)).map Col.name
  let categorical_cols :=
    (objectCols.filter (fun c => !datePromotable c)).map Col.name
  (numeric_cols, categorical_cols, datetime0 ++ promoted)

/-! ### auto_clean_data (src/data.py lines 65-91) -/

/-- Row `i` is fully missing across all columns of the table. -/
def rowEmptyAt (df : Table) (i : ℕ) : Bool :=
  df.all (fun c => (c.cells.getD i Cell.missing).isMissing)

/-- For each row index, whether it survives `dropna(how='all')`. -/
def keepMask (df : Table) : List Bool :=
  (List.range (rowCount df)).map (fun i => !rowEmptyAt df i)

/-- Keep the cells whose mask entry is true. -/
def applyMask : List Bool → List Cell → List Cell
  | true :: m, x :: l => x :: applyMask m l
  | false :: m, _ :: l => applyMask m l
  | _, _ => []

def dropRows (df : Table) : Table :=
  df.map (fun c => { c with cells := applyMask (keepMask df) c.cells })

/-- A column in which every cell is missing. -/
def colEmpty (c : Col) : Bool :=
  c.cells.all Cell.isMissing

/-- Step 1 of `auto_clean_data`, exactly as the source sequences it:
`df.dropna(how='all').dropna(axis=1, how='all')` — drop fully-empty rows
first, then drop the columns that are fully empty in what remains. -/
def step1 (df : Table) : Table :=
  (dropRows df).filter (fun c => !colEmpty c)

/-- The independent-passes reference from the specification: a row is dropped
iff fully missing over the original column set, and a column is dropped iff
fully missing over the original row set; the two passes read only the
original table. -/
def step1_indep (df : Table) : Table :=
  (df.filter (fun c => !colEmpty c)).map
    (fun c => { c with cells := applyMask (keepMask df) c.cells })

/-- All string cells parse numerically: the converted numeric cells
("nan" parses to NaN, i.e. missing). -/
def allParse : List String → Option (List Cell)
  | [] => some []
  | s :: t =>
      match parseNum s, allParse t with
      | some o, some rest =>
          some ((match o with
                 | none => Cell.missing
                 | some q => Cell.num q) :: rest)
      | _, _ => none

/-- Step 2 on one column:
`df[col] = pd.to_numeric(df[col].astype(str).str.replace(',', ''), errors='ignore')`
for object columns.  `astype(str)` prints missing cells as "nan"; every comma is
deleted; if every resulting string parses the column becomes numeric, otherwise
`errors='ignore'` returns its *input* — the stringified, comma-stripped series —
so the column keeps dtype object but holds the transformed strings. -/
def step2col (c : Col) : Col :=
  if c.dtype = Dtype.object then
    match allParse (c.cells.map (fun x => stripCommas (cellStr x))) with
    | some vals => { c with dtype := Dtype.numeric, cells := vals }
    | none =>
        { c with cells :=
            (c.cells.map (fun x => stripCommas (cellStr x))).map Cell.text }
  else c

/-- A cell `pd.to_datetime` accepts: missing (NaT) or a parsing date text. -/
def isDateCell : Cell → Bool
  | .missing => true
  | .text s => dateParses s
  | _ => false

def toDateCell : Cell → Cell
  | .text s => Cell.date (dateVal s)
  | other => other

/-- Step 3 on one column: `pd.to_datetime(df[col], errors='ignore')` for
object columns; converts to datetime iff every non-missing cell parses as a
date, otherwise leaves the column unchanged (here `errors='ignore'` returns
the untransformed input). -/
def step3col (c : Col) : Col :=
  if c.dtype = Dtype.object then
    if c.cells.all isDateCell then
      { c with dtype := Dtype.datetime, cells := c.cells.map toDateCell }
    else c
  else c

/-- Embedding of `auto_clean_data`: returns the cleaned table together with
the original and cleaned shapes `(rows, columns)`. -/
def auto_clean_data (df : Table) : Table × (ℕ × ℕ) × (ℕ × ℕ) :=
  let d1 := step1 df
  let d2 := d1.map step2col
  let d3 := d2.map step3col
  (d3, (rowCount df, df.length), (rowCount d3, d3.length))

/-- The cleaned table of `auto_clean_data`. -/
def cleanT (df : Table) : Table :=
  (auto_clean_data df).1

/-! ### suggest_analysis_insights (src/data.py lines 288-338) -/

/-- Insight records, tagged by rule, carrying the data the message templates
interpolate. -/
inductive Insight
  | qualityWarn (rate : ℚ)
  | qualityGood (rate : ℚ)
  | numericRichness (n : ℕ)
  | highVariance (cols : List String)
  | categoricalRichness (n : ℕ)
  | lowCardinality (cols : List String)
  | temporalPresence
deriving DecidableEq

def totalMissing (df : Table) : ℕ :=
  (df.map (fun c => (c.cells.filter Cell.isMissing).length)).sum

/-- Embeds `missing_rate = (df.isnull().sum().sum() / (df.shape[0] * df.shape[1])) * 100`. -/
def missingRate (df : Table) : ℚ :=
  (totalMissing df : ℚ) / ((rowCount df * df.length : ℕ) : ℚ) * 100

/-- The missing-rate if/elif of the source.  With zero cells the source float
quotient is NaN, for which both comparisons are false, hence no insight. -/
def missingRateInsights (df : Table) : List Insight :=
  if rowCount df * df.length = 0 then []
  else if missingRate df > 10 then [Insight.qualityWarn (missingRate df)]
  else if missingRate df < 1 then [Insight.qualityGood (missingRate df)]
  else []

/-- Cells of the (first) column with the given name, `[]` if absent. -/
def colCells (df : Table) (name : String) : List Cell :=
  ((df.find? (fun c => c.name = name)).map Col.cells).getD []

/-- The non-missing numeric values of a named column (pandas `skipna`). -/
def colNums (df : Table) (name : String) : List ℚ :=
  (colCells df name).filterMap Cell.numOf

def sampleMean (xs : List ℚ) : ℚ := xs.sum / (xs.length : ℚ)

/-- Sample variance with `ddof = 1`, the square of pandas `Series.std()`. -/
def sampleVar (xs : List ℚ) : ℚ :=
  (xs.map (fun x => (x - sampleMean xs) * (x - sampleMean xs))).sum /
    ((xs.length : ℚ) - 1)

/-- The comparison `df[col].std() / df[col].mean() > 1` of the source under
IEEE float semantics, decided exactly:
with fewer than 2 values the std (ddof = 1) is NaN so the comparison is
false; with a positive mean, `std/mean > 1` iff `var > mean²`; with a zero
mean and positive std the quotient is `+inf` (true), with zero std it is NaN
(false); with a negative mean the quotient is nonpositive (false). -/
def hvQualifies (xs : List ℚ) : Bool :=
  if xs.length < 2 then false
  else if sampleMean xs > 0 then
    decide (sampleVar xs > sampleMean xs * sampleMean xs)
  else if sampleMean xs = 0 then decide (sampleVar xs > 0)
  else false

/-- Embeds `df[col].nunique()`: number of distinct non-missing values. -/
def nuniqueCount (cells : List Cell) : ℕ :=
  ((cells.filter (fun x => !x.isMissing)).dedup).length

/-- Embeds `df[col].nunique() / len(df) < 0.1`.  With `len(df) = 0` the source
raises `ZeroDivisionError`; that table is rejected upstream as an
`InputError`, so the guard branch is unreachable in the pipeline. -/
def lowCardQualifies (df : Table) (name : String) : Bool :=
  if rowCount df = 0 then false
  else decide ((nuniqueCount (colCells df name) : ℚ) / (rowCount df : ℚ) < 1 / 10)

/-- Embedding of `suggest_analysis_insights`: the four blocks of the source
in order — missing-rate if/elif; the `len(numeric_cols) >= 2` block holding
the numeric-richness insight and, nested inside it, the high-variance rule;
the `len(categorical_cols) >= 1` block holding the categorical-richness
insight and, nested inside it, the low-cardinality rule; and the
temporal-presence rule. -/
def suggest_analysis_insights (df : Table) (numeric_cols categorical_cols
    datetime_cols : List String) : List Insight :=
  missingRateInsights df ++
  (if 2 ≤ numeric_cols.length then
    [Insight.numericRichness numeric_cols.length] ++
    (let hv := numeric_cols.filter (fun c => hvQualifies (colNums df c))
     if hv.isEmpty then [] else [Insight.highVariance (hv.take 3)])
   else []) ++
  (if 1 ≤ categorical_cols.length then
    [Insight.categoricalRichness categorical_cols.length] ++
    (let lc := categorical_cols.filter (fun c => lowCardQualifies df c)
     if lc.isEmpty then [] else [Insight.lowCardinality (lc.take 3)])
   else []) ++
  (if datetime_cols.isEmpty then [] else [Insight.temporalPresence])

/-! ### Correlation strong pairs (src/data.py lines 170-199) -/

/-- The `(i, j), i < j` traversal order of the nested loops over columns. -/
def ordPairs : List String → List (String × String)
  | [] => []
  | x :: t => t.map (fun y => (x, y)) ++ ordPairs t

/-- Rows where both columns hold a number (pandas pairwise-complete
observations of `DataFrame.corr`). -/
def pairedVals (df : Table) (a b : String) : List (ℚ × ℚ) :=
  ((colCells df a).zip (colCells df b)).filterMap
    (fun p =>
      match p.1.numOf, p.2.numOf with
      | some x, some y => some (x, y)
      | _, _ => none)

/-- The quantity `n·Σxy − Σx·Σy` over the paired sample: covariance scaled by `n²`. -/
def covN (ps : List (ℚ × ℚ)) : ℚ :=
  (ps.length : ℚ) * (ps.map (fun p => p.1 * p.2)).sum -
    (ps.map Prod.fst).sum * (ps.map Prod.snd).sum

/-- The quantity `n·Σx² − (Σx)²`: variance of the first components scaled by `n²`. -/
def varxN (ps : List (ℚ × ℚ)) : ℚ :=
  (ps.length : ℚ) * (ps.map (fun p => p.1 * p.1)).sum -
    (ps.map Prod.fst).sum * (ps.map Prod.fst).sum

/-- The quantity `n·Σy² − (Σy)²`: variance of the second components scaled by `n²`. -/
def varyN (ps : List (ℚ × ℚ)) : ℚ :=
  (ps.length : ℚ) * (ps.map (fun p => p.2 * p.2)).sum -
    (ps.map Prod.snd).sum * (ps.map Prod.snd).sum

/-- A strong-correlation record.  The Pearson coefficient
`r = covN / sqrt(varxN · varyN)` is irrational in general; it is encoded
exactly by its signed square `sign(r)·r² = covN·|covN| / (varxN·varyN)`,
a strictly monotone image of `r`, so `|r| > 0.5` iff `|signedSq| > 0.25`
and orderings by `|r|` and by `|signedSq|` coincide. -/
structure CorrPair where
  colA : String
  colB : String
  signedSq : ℚ
deriving DecidableEq

/-- Embeds `abs(corr_value) > 0.5` for one pair: defined (nonzero pairwise variances,
else `DataFrame.corr` yields NaN and the comparison is false) and
`|r| > 0.5`, i.e. `4·covN² > varxN·varyN`. -/
def strongPair (df : Table) (a b : String) : Option CorrPair :=
  let ps := pairedVals df a b
  let c := covN ps
  let vx := varxN ps
  let vy := varyN ps
  if 0 < vx ∧ 0 < vy ∧ vx * vy < 4 * (c * c) then
    some ⟨a, b, c * |c| / (vx * vy)⟩
  else none

/-- Insertion into a list kept in descending `|signedSq|` order. -/
def insertDesc (p : CorrPair) : List CorrPair → List CorrPair
  | [] => [p]
  | q :: t =>
      if |q.signedSq| ≤ |p.signedSq| then p :: q :: t else q :: insertDesc p t

/-- Embeds `sort_values(key=abs, ascending=False)`: an arrangement that
is descending in the absolute coefficient. -/
def sortDesc : List CorrPair → List CorrPair
  | [] => []
  | p :: t => insertDesc p (sortDesc t)

/-- Embedding of the strong-pairs computation of `auto_visualize_numeric`:
run only when at least 2 numeric columns exist; collect the `i < j` pairs
whose absolute Pearson coefficient exceeds 0.5; sort by descending absolute
coefficient. -/
def corr_pairs (df : Table) (numeric_cols : List String) : List CorrPair :=
  if numeric_cols.length < 2 then []
  else sortDesc ((ordPairs numeric_cols).filterMap
    (fun p => strongPair df p.1 p.2))

/-! ### TrendProjector (spec section 4.7; no source under src/) -/

/-- Projection record of the TrendProjector (spec section 3). -/
structure Projection where
  key : String
  baselineValue : Option ℚ
  targetValue : ℚ
  relChange : ℚ
  relOk : Bool
deriving DecidableEq

/-- All observed years of a group coincide (zero-variance regressor). -/
def allSameYears (pts : List (ℤ × ℚ)) : Bool :=
  match pts with
  | [] => true
  | p :: t => t.all (fun q => q.1 = p.1)

/-- A group is projected iff it has at least 3 points and not all its years
coincide. -/
def eligibleGroup (g : String × List (ℤ × ℚ)) : Bool :=
  decide (3 ≤ g.2.length) && !allSameYears g.2

/-- Modelled from the spec: the TrendProjector component (spec section 4.7)
belongs to this repository's dashboard variants but its source file is not
under src/; this definition follows the specification's words.  Per group
with at least 3 points and non-identical years: ordinary least-squares
degree-1 fit over (year, value), evaluated at the target year, clamped to
[0, 100]; relative change `(clamped/baseline)·100 − 100` against the
observed baseline-year value when present and nonzero, otherwise 0 and
flagged not computable. -/
def projectGroup (baseline target : ℤ) (g : String × List (ℤ × ℚ)) :
    Option Projection :=
  if eligibleGroup g then
    let pts := g.2
    let n : ℚ := (pts.length : ℚ)
    let sx : ℚ := (pts.map (fun p => (p.1 : ℚ))).sum
    let sy : ℚ := (pts.map Prod.snd).sum
    let sxx : ℚ := (pts.map (fun p => (p.1 : ℚ) * (p.1 : ℚ))).sum
    let sxy : ℚ := (pts.map (fun p => (p.1 : ℚ) * p.2)).sum
    let slope := (n * sxy - sx * sy) / (n * sxx - sx * sx)
    let intercept := (sy - slope * sx) / n
    let raw := slope * (target : ℚ) + intercept
    let clamped := max 0 (min 100 raw)
    match pts.find? (fun p => p.1 = baseline) with
    | some p =>
        if p.2 = 0 then some ⟨g.1, some p.2, clamped, 0, false⟩
        else some ⟨g.1, some p.2, clamped, clamped / p.2 * 100 - 100, true⟩
    | none => some ⟨g.1, none, clamped, 0, false⟩
  else none

def trendProject (groups : List (String × List (ℤ × ℚ)))
    (baseline target : ℤ) : List Projection :=
  groups.filterMap (projectGroup baseline target)

/-- All values of a list coincide (a zero-variance column). -/
def allEqualQ (l : List ℚ) : Prop :=
  ∀ x ∈ l, ∀ y ∈ l, x = y

instance (l : List ℚ) : Decidable (allEqualQ l) := by
  unfold allEqualQ; exact inferInstance

/-! ## Helper lemmas for `detect_data_types` -/

theorem mem_detect_numeric_iff {df : Table} {c : Col} (h : (df.map Col.name).Nodup)
    (hc : c ∈ df) :
    c.name ∈ (detect_data_types df).1 ↔ c.dtype = Dtype.numeric := by
  simp only [detect_data_types, List.mem_map, List.mem_filter, decide_eq_true_eq]
  constructor
  · rintro ⟨a, ⟨ha, hd⟩, hn⟩
    have := List.inj_on_of_nodup_map h ha hc hn
    rw [← this]; exact hd
  · intro hd; exact ⟨c, ⟨hc, hd⟩, rfl⟩

theorem mem_detect_categorical_iff {df : Table} {c : Col}
    (h : (df.map Col.name).Nodup) (hc : c ∈ df) :
    c.name ∈ (detect_data_types df).2.1 ↔
      c.dtype = Dtype.object ∧ datePromotable c = false := by
  simp only [detect_data_types, List.mem_map, List.mem_filter, decide_eq_true_eq,
    Bool.not_eq_true', Bool.not_eq_false]
  constructor
  · rintro ⟨a, ⟨⟨ha, hd⟩, hp⟩, hn⟩
    have := List.inj_on_of_nodup_map h ha hc hn
    rw [← this]; exact ⟨hd, hp⟩
  · rintro ⟨hd, hp⟩; exact ⟨c, ⟨⟨hc, hd⟩, hp⟩, rfl⟩

theorem mem_detect_temporal_iff {df : Table} {c : Col}
    (h : (df.map Col.name).Nodup) (hc : c ∈ df) :
    c.name ∈ (detect_data_types df).2.2 ↔
      c.dtype = Dtype.datetime ∨
        (c.dtype = Dtype.object ∧ datePromotable c = true) := by
  simp only [detect_data_types, List.mem_append, List.mem_map, List.mem_filter,
    decide_eq_true_eq]
  constructor
  · rintro (⟨a, ⟨ha, hd⟩, hn⟩ | ⟨a, ⟨⟨ha, hd⟩, hp⟩, hn⟩)
    · have := List.inj_on_of_nodup_map h ha hc hn
      rw [← this]; exact Or.inl hd
    · have := List.inj_on_of_nodup_map h ha hc hn
      rw [← this]; exact Or.inr ⟨hd, hp⟩
  · rintro (hd | ⟨hd, hp⟩)
    · exact Or.inl ⟨c, ⟨hc, hd⟩, rfl⟩
    · exact Or.inr ⟨c, ⟨⟨hc, hd⟩, hp⟩, rfl⟩

/-- An all-missing column is date-promotable: its non-missing sample is empty
and the vacuous `pd.to_datetime` call succeeds. -/
theorem datePromotable_of_all_missing {c : Col}
    (hm : c.cells.all Cell.isMissing = true) : datePromotable c = true := by
  unfold datePromotable
  have : c.cells.filter (fun x => !x.isMissing) = [] := by
    rw [List.filter_eq_nil_iff]
    intro a ha
    simp only [Bool.not_eq_true', Bool.not_eq_false]
    exact List.all_eq_true.mp hm a ha
  rw [this]
  rfl

/-! ## Claim theorems: type inference (C4, C5) -/

/-- C4 counterexample.  The claim says a retained column consisting entirely
of missing values is classified categorical.  The code classifies an
all-missing object-dtype column as temporal (the empty 100-value sample
vacuously parses as dates, promoting it), and an all-missing numeric-dtype
column (all-NaN float) as numeric; neither is categorical. -/
theorem c4_counterexample :
    detect_data_types [⟨"c", Dtype.object, [Cell.missing]⟩] = ([], [], ["c"]) ∧
    detect_data_types [⟨"d", Dtype.numeric, [Cell.missing]⟩] = (["d"], [], []) := by
  constructor <;> rfl

/-- C4 (amended): a retained column consisting entirely of missing values is
never classified categorical; it is classified numeric when stored under a
numeric dtype, and promoted to temporal when stored under the object dtype
(its empty date-parse sample vacuously succeeds). -/
theorem c4_all_missing_classification (df : Table)
    (h : (df.map Col.name).Nodup) (c : Col) (hc : c ∈ df)
    (hm : c.cells.all Cell.isMissing = true) :
    c.name ∉ (detect_data_types df).2.1 ∧
    (c.dtype = Dtype.numeric → c.name ∈ (detect_data_types df).1) ∧
    (c.dtype = Dtype.object → c.name ∈ (detect_data_types df).2.2) := by
  have hp := datePromotable_of_all_missing hm
  refine ⟨?_, ?_, ?_⟩
  · intro hmem
    have := (mem_detect_categorical_iff h hc).mp hmem
    rw [hp] at this
    exact absurd this.2 (by simp)
  · intro hd; exact (mem_detect_numeric_iff h hc).mpr hd
  · intro hd; exact (mem_detect_temporal_iff h hc).mpr (Or.inr ⟨hd, hp⟩)

/-- C4 witness: in the one-column table holding only a missing object cell,
the column is not categorical and is temporal. -/
theorem c4_witness :
    "c" ∉ (detect_data_types [⟨"c", Dtype.object, [Cell.missing]⟩]).2.1 ∧
    "c" ∈ (detect_data_types [⟨"c", Dtype.object, [Cell.missing]⟩]).2.2 := by
  have h := c4_all_missing_classification
    [⟨"c", Dtype.object, [Cell.missing]⟩] (by decide)
    ⟨"c", Dtype.object, [Cell.missing]⟩ (by decide) (by decide)
  exact ⟨h.1, h.2.2 rfl⟩

/-- C5 (confirmed): over the data model's dtype universe, the classification
returned by `detect_data_types` is total and mutually exclusive — every
column of the table lands in exactly one of the numeric, categorical and
temporal lists. -/
theorem c5_partition_total_exclusive (df : Table)
    (h : (df.map Col.name).Nodup) (c : Col) (hc : c ∈ df) :
    (c.name ∈ (detect_data_types df).1 ∧ c.name ∉ (detect_data_types df).2.1 ∧
      c.name ∉ (detect_data_types df).2.2) ∨
    (c.name ∉ (detect_data_types df).1 ∧ c.name ∈ (detect_data_types df).2.1 ∧
      c.name ∉ (detect_data_types df).2.2) ∨
    (c.name ∉ (detect_data_types df).1 ∧ c.name ∉ (detect_data_types df).2.1 ∧
      c.name ∈ (detect_data_types df).2.2) := by
  rw [show (c.name ∈ (detect_data_types df).1) = (c.dtype = Dtype.numeric) from
        propext (mem_detect_numeric_iff h hc),
      show (c.name ∈ (detect_data_types df).2.1) =
          (c.dtype = Dtype.object ∧ datePromotable c = false) from
        propext (mem_detect_categorical_iff h hc),
      show (c.name ∈ (detect_data_types df).2.2) =
          (c.dtype = Dtype.datetime ∨
            (c.dtype = Dtype.object ∧ datePromotable c = true)) from
        propext (mem_detect_temporal_iff h hc)]
  rcases hd : c.dtype with _ | _ | _
  · exact Or.inl ⟨rfl, by simp, by simp⟩
  · rcases hp : datePromotable c with _ | _
    · exact Or.inr (Or.inl ⟨by simp, ⟨rfl, rfl⟩, by simp⟩)
    · exact Or.inr (Or.inr ⟨by simp, by simp, Or.inr ⟨rfl, rfl⟩⟩)
  · exact Or.inr (Or.inr ⟨by simp, by simp, Or.inl rfl⟩)

/-- C5 witness: the partition at a concrete three-column table. -/
theorem c5_witness :
    ("n" ∈ (detect_data_types [⟨"n", Dtype.numeric, [Cell.num 1]⟩,
        ⟨"s", Dtype.object, [Cell.text "x"]⟩]).1 ∧
      "n" ∉ (detect_data_types [⟨"n", Dtype.numeric, [Cell.num 1]⟩,
        ⟨"s", Dtype.object, [Cell.text "x"]⟩]).2.1 ∧
      "n" ∉ (detect_data_types [⟨"n", Dtype.numeric, [Cell.num 1]⟩,
        ⟨"s", Dtype.object, [Cell.text "x"]⟩]).2.2) ∨
    ("n" ∉ (detect_data_types [⟨"n", Dtype.numeric, [Cell.num 1]⟩,
        ⟨"s", Dtype.object, [Cell.text "x"]⟩]).1 ∧
      "n" ∈ (detect_data_types [⟨"n", Dtype.numeric, [Cell.num 1]⟩,
        ⟨"s", Dtype.object, [Cell.text "x"]⟩]).2.1 ∧
      "n" ∉ (detect_data_types [⟨"n", Dtype.numeric, [Cell.num 1]⟩,
        ⟨"s", Dtype.object, [Cell.text "x"]⟩]).2.2) ∨
    ("n" ∉ (detect_data_types [⟨"n", Dtype.numeric, [Cell.num 1]⟩,
        ⟨"s", Dtype.object, [Cell.text "x"]⟩]).1 ∧
      "n" ∉ (detect_data_types [⟨"n", Dtype.numeric, [Cell.num 1]⟩,
        ⟨"s", Dtype.object, [Cell.text "x"]⟩]).2.1 ∧
      "n" ∈ (detect_data_types [⟨"n", Dtype.numeric, [Cell.num 1]⟩,
        ⟨"s", Dtype.object, [Cell.text "x"]⟩]).2.2) :=
  c5_partition_total_exclusive
    [⟨"n", Dtype.numeric, [Cell.num 1]⟩, ⟨"s", Dtype.object, [Cell.text "x"]⟩]
    (by decide) ⟨"n", Dtype.numeric, [Cell.num 1]⟩ (by decide)

/-! ## Helper lemmas for the cleaning step (mask calculus) -/

theorem applyMask_subset : ∀ (m : List Bool) (l : List Cell),
    ∀ x ∈ applyMask m l, x ∈ l := by
  intro m
  induction m with
  | nil => intro l x hx; simp [applyMask] at hx
  | cons b m ih =>
      intro l x hx
      cases l with
      | nil => cases b <;> simp [applyMask] at hx
      | cons y t =>
          cases b with
          | true =>
              rcases List.mem_cons.mp hx with h | h
              · exact h ▸ List.mem_cons_self y t
              · exact List.mem_cons_of_mem y (ih t x h)
          | false => exact List.mem_cons_of_mem y (ih t x hx)

theorem getD_mem_applyMask :
    ∀ (m : List Bool) (l : List Cell) (i : ℕ), i < m.length → i < l.length →
      m.getD i false = true → l.getD i Cell.missing ∈ applyMask m l := by
  intro m
  induction m with
  | nil => intro l i hi; simp at hi
  | cons b m ih =>
      intro l i him hil hm
      cases l with
      | nil => simp at hil
      | cons y t =>
          cases i with
          | zero =>
              simp only [List.getD_cons_zero] at hm ⊢
              subst hm
              exact List.mem_cons_self y (applyMask m t)
          | succ j =>
              simp only [List.getD_cons_succ] at hm ⊢
              have hj : j < m.length := by simpa using him
              have hjt : j < t.length := by simpa using hil
              have := ih t j hj hjt hm
              cases b with
              | true => exact List.mem_cons_of_mem y this
              | false => exact this

theorem keepMask_length (df : Table) : (keepMask df).length = rowCount df := by
  simp [keepMask]

theorem keepMask_getD {df : Table} {i : ℕ} (hi : i < rowCount df) :
    (keepMask df).getD i false = !rowEmptyAt df i := by
  have hlen : i < (keepMask df).length := by rw [keepMask_length]; exact hi
  rw [List.getD_eq_getElem _ _ hlen]
  simp [keepMask]

/-- Row masking does not change whether a column is fully missing: a dropped
row is fully missing, so it can contribute no non-missing cell to any
column. -/
theorem colEmpty_applyMask {df : Table} {c : Col} (hc : c ∈ df)
    (hl : c.cells.length = rowCount df) :
    (applyMask (keepMask df) c.cells).all Cell.isMissing =
      c.cells.all Cell.isMissing := by
  rcases h : c.cells.all Cell.isMissing with _ | _
  · rw [List.all_eq_false] at h ⊢
    obtain ⟨x, hx, hpx⟩ := h
    obtain ⟨⟨i, hi⟩, hget⟩ := List.mem_iff_get.mp hx
    have hgetD : c.cells.getD i Cell.missing = x := by
      rw [List.getD_eq_getElem _ _ hi]; exact hget
    have hre : rowEmptyAt df i = false := by
      rw [rowEmptyAt, List.all_eq_false]
      exact ⟨c, hc, by rw [hgetD]; exact hpx⟩
    have hirc : i < rowCount df := hl ▸ hi
    have hmask : (keepMask df).getD i false = true := by
      rw [keepMask_getD hirc, hre]; rfl
    refine ⟨x, ?_, hpx⟩
    rw [← hgetD]
    exact getD_mem_applyMask (keepMask df) c.cells i
      (by rw [keepMask_length]; exact hirc) hi hmask
  · rw [List.all_eq_true] at h ⊢
    intro x hx
    exact h x (applyMask_subset _ _ x hx)

/-! ## Claim theorems: cleaning step 1 (C8) -/

/-- C8 (confirmed): on a well-formed table, the sequential implementation of
cleaning step 1 (`dropna(how='all')` on rows first, then on the columns of
the remainder) equals the independent-passes reference in which both row and
column emptiness are judged on the original table. -/
theorem c8_step1_equiv (df : Table) (hwf : df.wf) :
    step1 df = step1_indep df := by
  obtain ⟨hlen, -, -⟩ := hwf
  unfold step1 step1_indep dropRows
  rw [List.filter_map]
  congr 1
  apply List.filter_congr
  intro c hc
  simp only [Function.comp_apply, colEmpty]
  rw [colEmpty_applyMask hc (hlen c hc)]

/-- C8 witness: the equivalence at a concrete table holding a fully-missing
column, a fully-missing row, and survivors of both. -/
theorem c8_witness :
    Table.wf [⟨"a", Dtype.object, [Cell.missing, Cell.text "x"]⟩,
      ⟨"b", Dtype.numeric, [Cell.missing, Cell.missing]⟩] ∧
    step1 [⟨"a", Dtype.object, [Cell.missing, Cell.text "x"]⟩,
      ⟨"b", Dtype.numeric, [Cell.missing, Cell.missing]⟩] =
    step1_indep [⟨"a", Dtype.object, [Cell.missing, Cell.text "x"]⟩,
      ⟨"b", Dtype.numeric, [Cell.missing, Cell.missing]⟩] :=
  ⟨by decide, c8_step1_equiv
    [⟨"a", Dtype.object, [Cell.missing, Cell.text "x"]⟩,
      ⟨"b", Dtype.numeric, [Cell.missing, Cell.missing]⟩] (by decide)⟩

/-! ## Claim theorems: cleaning step 2, comma stripping (C10) -/

theorem allParse_isSome_iff : ∀ (l : List String),
    (allParse l).isSome = true ↔ ∀ s ∈ l, (parseNum s).isSome = true := by
  intro l
  induction l with
  | nil => simp [allParse]
  | cons s t ih =>
      cases hp : parseNum s with
      | none => simp [allParse, hp]
      | some v =>
          cases hap : allParse t with
          | none => simp [allParse, hp, hap] at *; simpa [hap] using ih
          | some vs => simp [allParse, hp, hap] at *; simpa [hap] using ih

theorem step2col_object {c : Col} (hd : c.dtype = Dtype.object) :
    step2col c =
      match allParse (c.cells.map (fun x => stripCommas (cellStr x))) with
      | some vals => { c with dtype := Dtype.numeric, cells := vals }
      | none =>
          { c with cells :=
              (c.cells.map (fun x => stripCommas (cellStr x))).map Cell.text } := by
  unfold step2col
  rw [if_pos hd]

/-- Step 2 turns the text "1,2" into the number 12: the comma is deleted
although it is not a thousands separator. -/
theorem step2col_example : step2col ⟨"v", Dtype.object, [Cell.text "1,2"]⟩ =
    ⟨"v", Dtype.numeric, [Cell.num 12]⟩ := by
  have h : ((12 : ℕ) : ℚ) = (12 : ℚ) := by norm_num
  calc step2col ⟨"v", Dtype.object, [Cell.text "1,2"]⟩
      = ⟨"v", Dtype.numeric, [Cell.num ((12 : ℕ) : ℚ)]⟩ := rfl
    _ = ⟨"v", Dtype.numeric, [Cell.num 12]⟩ := by rw [h]

/-- C10 (confirmed): in the numeric-repair step, comma deletion is global
within each cell's text (`stripCommas` deletes every comma), conversion to
numeric happens exactly when every comma-stripped value parses, the failure
path keeps the column non-numeric, and the non-thousands-separator text
"1,2" becomes the number 12. -/
theorem c10_comma_strip (c : Col) (hd : c.dtype = Dtype.object) :
    ((step2col c).dtype = Dtype.numeric ↔
      ∀ s ∈ c.cells.map (fun x => stripCommas (cellStr x)),
        (parseNum s).isSome = true) ∧
    ((step2col c).dtype ≠ Dtype.numeric →
      step2col c = { c with cells :=
        (c.cells.map (fun x => stripCommas (cellStr x))).map Cell.text }) ∧
    stripCommas "1,2" = "12" ∧
    step2col ⟨"v", Dtype.object, [Cell.text "1,2"]⟩ =
      ⟨"v", Dtype.numeric, [Cell.num 12]⟩ := by
  rw [step2col_object hd]
  cases hap : allParse (c.cells.map (fun x => stripCommas (cellStr x))) with
  | none =>
      refine ⟨?_, fun _ => rfl, by decide, step2col_example⟩
      have hobj : ({ c with cells := (c.cells.map (fun x =>
          stripCommas (cellStr x))).map Cell.text } : Col).dtype =
          c.dtype := rfl
      constructor
      · intro h
        rw [hobj, hd] at h
        exact absurd h (by simp)
      · intro h
        have hs : (allParse (c.cells.map (fun x =>
            stripCommas (cellStr x)))).isSome = true :=
          (allParse_isSome_iff _).mpr h
        rw [hap] at hs
        simp at hs
  | some vals =>
      refine ⟨?_, ?_, by decide, step2col_example⟩
      · have hnum : ({ c with dtype := Dtype.numeric, cells := vals } :
            Col).dtype = Dtype.numeric := rfl
        rw [hnum]
        simp only [true_iff]
        intro s hs
        have hsome : (allParse (c.cells.map (fun x =>
            stripCommas (cellStr x)))).isSome = true := by rw [hap]; rfl
        exact (allParse_isSome_iff _).mp hsome s hs
      · intro h; exact absurd rfl h

/-- C10 witness: a concrete object column converts to numeric. -/
theorem c10_witness :
    (step2col ⟨"w", Dtype.object, [Cell.text "3,4", Cell.text "5"]⟩).dtype =
      Dtype.numeric :=
  (c10_comma_strip ⟨"w", Dtype.object, [Cell.text "3,4", Cell.text "5"]⟩
    rfl).1.mpr (by decide)

theorem stripCommas_idem (s : String) :
    stripCommas (stripCommas s) = stripCommas s := by
  simp [stripCommas, List.filter_filter]

theorem step2col_not_object {c : Col} (hd : ¬ c.dtype = Dtype.object) :
    step2col c = c := by
  unfold step2col; rw [if_neg hd]

theorem step3col_not_object {c : Col} (hd : ¬ c.dtype = Dtype.object) :
    step3col c = c := by
  unfold step3col; rw [if_neg hd]

theorem step3col_object {c : Col} (hd : c.dtype = Dtype.object) :
    step3col c =
      if c.cells.all isDateCell then
        { c with dtype := Dtype.datetime, cells := c.cells.map toDateCell }
      else c := by
  unfold step3col; rw [if_pos hd]

/-- One cleaned column is a fixed point of the per-column steps 2 and 3. -/
theorem clean_col_fixed (c : Col) :
    step3col (step2col (step3col (step2col c))) = step3col (step2col c) := by
  by_cases hd : c.dtype = Dtype.object
  · rw [step2col_object hd]
    cases hap : allParse (c.cells.map (fun x => stripCommas (cellStr x))) with
    | some vals =>
        show step3col (step2col (step3col
            { c with dtype := Dtype.numeric, cells := vals })) =
          step3col { c with dtype := Dtype.numeric, cells := vals }
        have h2 : step2col { c with dtype := Dtype.numeric, cells := vals } =
            { c with dtype := Dtype.numeric, cells := vals } :=
          step2col_not_object (by simp)
        have h3 : step3col { c with dtype := Dtype.numeric, cells := vals } =
            { c with dtype := Dtype.numeric, cells := vals } :=
          step3col_not_object (by simp)
        rw [h3, h2, h3]
    | none =>
        show step3col (step2col (step3col { c with cells :=
            (c.cells.map (fun x => stripCommas (cellStr x))).map Cell.text })) =
          step3col { c with cells :=
            (c.cells.map (fun x => stripCommas (cellStr x))).map Cell.text }
        set u : Col := { c with cells :=
          (c.cells.map (fun x => stripCommas (cellStr x))).map Cell.text } with hu
        have hud : u.dtype = Dtype.object := hd
        have hucells : u.cells.map (fun x => stripCommas (cellStr x)) =
            c.cells.map (fun x => stripCommas (cellStr x)) := by
          show ((c.cells.map (fun x => stripCommas (cellStr x))).map
            Cell.text).map (fun x => stripCommas (cellStr x)) = _
          rw [List.map_map, List.map_map]
          apply List.map_congr_left
          intro x hx
          simp only [Function.comp_apply, cellStr, stripCommas_idem]
        have h2u : step2col u = u := by
          rw [step2col_object hud, hucells, hap]
        by_cases hall : u.cells.all isDateCell
        · have h3u : step3col u = ⟨u.name, Dtype.datetime,
              u.cells.map toDateCell⟩ := by
            rw [step3col_object hud, if_pos hall]
          rw [h3u]
          have h2w : step2col ⟨u.name, Dtype.datetime,
              u.cells.map toDateCell⟩ = ⟨u.name, Dtype.datetime,
              u.cells.map toDateCell⟩ := step2col_not_object (by simp)
          have h3w : step3col ⟨u.name, Dtype.datetime,
              u.cells.map toDateCell⟩ = ⟨u.name, Dtype.datetime,
              u.cells.map toDateCell⟩ := step3col_not_object (by simp)
          rw [h2w, h3w]
        · have h3u : step3col u = u := by
            rw [step3col_object hud, if_neg hall]
          rw [h3u, h2u, h3u]
  · have h2 := step2col_not_object hd
    have h3 := step3col_not_object hd
    rw [h2, h3, h2, h3]

theorem applyMask_length_congr : ∀ (m : List Bool) (l1 l2 : List Cell),
    l1.length = l2.length →
    (applyMask m l1).length = (applyMask m l2).length := by
  intro m
  induction m with
  | nil => intro l1 l2 h; cases l1 <;> cases l2 <;> simp_all [applyMask]
  | cons b t ih =>
      intro l1 l2 h
      cases l1 with
      | nil => cases l2 with
          | nil => rfl
          | cons y t2 => simp at h
      | cons x t1 =>
          cases l2 with
          | nil => simp at h
          | cons y t2 =>
              simp only [List.length_cons, Nat.succ_inj] at h
              cases b with
              | true => simp [applyMask, ih t1 t2 h]
              | false => simp [applyMask, ih t1 t2 h]

theorem allParse_length : ∀ {l : List String} {vals : List Cell},
    allParse l = some vals → vals.length = l.length := by
  intro l
  induction l with
  | nil => intro vals h; simp [allParse] at h; simp [← h]
  | cons s t ih =>
      intro vals h
      cases hp : parseNum s with
      | none => simp [allParse, hp] at h
      | some v =>
          cases hap : allParse t with
          | none => simp [allParse, hp, hap] at h
          | some rest =>
              simp only [allParse, hp, hap, Option.some.injEq] at h
              rw [← h]
              simp [ih hap]

theorem step2col_length (c : Col) :
    (step2col c).cells.length = c.cells.length := by
  by_cases hd : c.dtype = Dtype.object
  · rw [step2col_object hd]
    cases hap : allParse (c.cells.map (fun x => stripCommas (cellStr x))) with
    | some vals =>
        show vals.length = c.cells.length
        rw [allParse_length hap, List.length_map]
    | none =>
        show ((c.cells.map (fun x => stripCommas (cellStr x))).map
          Cell.text).length = c.cells.length
        simp
  · rw [step2col_not_object hd]

theorem step3col_length (c : Col) :
    (step3col c).cells.length = c.cells.length := by
  by_cases hd : c.dtype = Dtype.object
  · rw [step3col_object hd]
    by_cases hall : c.cells.all isDateCell
    · rw [if_pos hall]; simp
    · rw [if_neg hall]
  · rw [step3col_not_object hd]

/-- In a table whose columns all have equal cell counts, every column has
the head count. -/
theorem length_eq_rowCount_of_pairwise {t : Table}
    (h : ∀ c ∈ t, ∀ c' ∈ t, c.cells.length = c'.cells.length) :
    ∀ c ∈ t, c.cells.length = rowCount t := by
  cases t with
  | nil => intro c hc; simp at hc
  | cons c0 tl =>
      intro c hc
      have : rowCount (c0 :: tl) = c0.cells.length := rfl
      rw [this]
      exact h c hc c0 (List.mem_cons_self c0 tl)

theorem step1_length {df : Table} (hl : ∀ c ∈ df, c.cells.length = rowCount df) :
    ∀ c ∈ step1 df, c.cells.length = rowCount (step1 df) := by
  apply length_eq_rowCount_of_pairwise
  intro c hc c' hc'
  have hc1 : c ∈ dropRows df := List.mem_of_mem_filter hc
  have hc1' : c' ∈ dropRows df := List.mem_of_mem_filter hc'
  obtain ⟨a, ha, rfl⟩ := List.mem_map.mp hc1
  obtain ⟨a', ha', rfl⟩ := List.mem_map.mp hc1'
  exact applyMask_length_congr (keepMask df) a.cells a'.cells
    ((hl a ha).trans (hl a' ha').symm)

theorem map_length_eq_rowCount {t : Table} (f : Col → Col)
    (hf : ∀ c, (f c).cells.length = c.cells.length)
    (hl : ∀ c ∈ t, c.cells.length = rowCount t) :
    ∀ c ∈ t.map f, c.cells.length = rowCount (t.map f) := by
  apply length_eq_rowCount_of_pairwise
  intro c hc c' hc'
  obtain ⟨a, ha, rfl⟩ := List.mem_map.mp hc
  obtain ⟨a', ha', rfl⟩ := List.mem_map.mp hc'
  rw [hf a, hf a', hl a ha, hl a' ha']

theorem cleanT_eq (df : Table) :
    cleanT df = ((step1 df).map step2col).map step3col := rfl

theorem cleanT_length {df : Table}
    (hl : ∀ c ∈ df, c.cells.length = rowCount df) :
    ∀ c ∈ cleanT df, c.cells.length = rowCount (cleanT df) := by
  rw [cleanT_eq]
  exact map_length_eq_rowCount step3col step3col_length
    (map_length_eq_rowCount step2col step2col_length (step1_length hl))

theorem applyMask_all_true : ∀ (m : List Bool) (l : List Cell),
    (∀ b ∈ m, b = true) → m.length = l.length → applyMask m l = l := by
  intro m
  induction m with
  | nil => intro l _ h; cases l with
      | nil => rfl
      | cons x t => simp at h
  | cons b t ih =>
      intro l hb h
      cases l with
      | nil => simp at h
      | cons x t2 =>
          have hbt : b = true := hb b (List.mem_cons_self b t)
          subst hbt
          simp only [List.length_cons, Nat.succ_inj] at h
          show x :: applyMask t t2 = x :: t2
          rw [ih t2 (fun b hbm => hb b (List.mem_cons_of_mem _ hbm)) h]

/-- If the table has no fully-missing row and no fully-missing column,
step 1 leaves it unchanged. -/
theorem step1_fixed {d : Table}
    (hl : ∀ c ∈ d, c.cells.length = rowCount d)
    (hcol : ∀ c ∈ d, colEmpty c = false)
    (hrow : ∀ i < rowCount d, rowEmptyAt d i = false) :
    step1 d = d := by
  have hmask : ∀ b ∈ keepMask d, b = true := by
    intro b hb
    obtain ⟨i, hi, rfl⟩ := List.mem_map.mp hb
    rw [hrow i (List.mem_range.mp hi)]
    rfl
  have hdrop : dropRows d = d := by
    unfold dropRows
    have : ∀ c ∈ d, { c with cells := applyMask (keepMask d) c.cells } = c := by
      intro c hc
      have : applyMask (keepMask d) c.cells = c.cells :=
        applyMask_all_true (keepMask d) c.cells hmask
          (by rw [keepMask_length, hl c hc])
      rw [this]
    calc d.map (fun c => { c with cells := applyMask (keepMask d) c.cells })
        = d.map id := List.map_congr_left this
      _ = d := List.map_id d
  unfold step1
  rw [hdrop]
  apply List.filter_eq_self.mpr
  intro c hc
  rw [hcol c hc]
  rfl

/-- C7 counterexample.  The claim says cleaning is idempotent on every raw
table.  For the one-cell table holding the text "nan", cleaning parses the
cell to NaN (`pd.to_numeric` accepts "nan"), producing a table whose only
column is fully missing; a second cleaning drops that column, so the second
output differs from the first. -/
theorem c7_counterexample :
    cleanT (cleanT [⟨"a", Dtype.object, [Cell.text "nan"]⟩]) ≠
      cleanT [⟨"a", Dtype.object, [Cell.text "nan"]⟩] := by decide

/-- C7 (amended): cleaning is idempotent on every well-formed raw table whose
cleaned output has no fully-missing row and no fully-missing column (numeric
reparsing can manufacture new missing cells out of NaN-like text, which is
the only way a second pass can differ). -/
theorem c7_clean_idempotent (df : Table) (hwf : df.wf)
    (hcol : ∀ c ∈ cleanT df, colEmpty c = false)
    (hrow : ∀ i < rowCount (cleanT df), rowEmptyAt (cleanT df) i = false) :
    cleanT (cleanT df) = cleanT df := by
  obtain ⟨hl, -, -⟩ := hwf
  have hlen := cleanT_length hl
  have h1 : step1 (cleanT df) = cleanT df := step1_fixed hlen hcol hrow
  have e1 : cleanT (cleanT df) = ((cleanT df).map step2col).map step3col := by
    rw [cleanT_eq (cleanT df), h1]
  rw [e1, cleanT_eq df, List.map_map, List.map_map, List.map_map, List.map_map]
  apply List.map_congr_left
  intro c hc
  simp only [Function.comp_apply]
  exact clean_col_fixed c

/-- C7 witness: idempotence at a concrete table. -/
theorem c7_witness :
    cleanT (cleanT [⟨"a", Dtype.object, [Cell.text "x"]⟩]) =
      cleanT [⟨"a", Dtype.object, [Cell.text "x"]⟩] :=
  c7_clean_idempotent [⟨"a", Dtype.object, [Cell.text "x"]⟩]
    (by decide) (by decide) (by decide)

/-! ## Helper lemmas for the insight engine -/

theorem qualityWarn_mem_suggest (df : Table) (ncols ccols dcols : List String)
    (r : ℚ) :
    Insight.qualityWarn r ∈ suggest_analysis_insights df ncols ccols dcols ↔
      Insight.qualityWarn r ∈ missingRateInsights df := by
  simp only [suggest_analysis_insights, List.mem_append]
  constructor
  · rintro (((h | h) | h) | h)
    · exact h
    · split_ifs at h <;> simp_all
    · split_ifs at h <;> simp_all
    · split_ifs at h <;> simp_all
  · exact fun h => Or.inl (Or.inl (Or.inl h))

theorem qualityGood_mem_suggest (df : Table) (ncols ccols dcols : List String)
    (r : ℚ) :
    Insight.qualityGood r ∈ suggest_analysis_insights df ncols ccols dcols ↔
      Insight.qualityGood r ∈ missingRateInsights df := by
  simp only [suggest_analysis_insights, List.mem_append]
  constructor
  · rintro (((h | h) | h) | h)
    · exact h
    · split_ifs at h <;> simp_all
    · split_ifs at h <;> simp_all
    · split_ifs at h <;> simp_all
  · exact fun h => Or.inl (Or.inl (Or.inl h))

theorem highVariance_mem_suggest (df : Table) (ncols ccols dcols : List String)
    (cols : List String) :
    Insight.highVariance cols ∈
        suggest_analysis_insights df ncols ccols dcols ↔
      2 ≤ ncols.length ∧
        ncols.filter (fun c => hvQualifies (colNums df c)) ≠ [] ∧
        cols = (ncols.filter (fun c => hvQualifies (colNums df c))).take 3 := by
  simp only [suggest_analysis_insights, List.mem_append]
  constructor
  · rintro (((h | h) | h) | h)
    · unfold missingRateInsights at h
      split_ifs at h <;> simp_all
    · split_ifs at h with h1 h2 <;> simp_all [List.isEmpty_iff]
    · split_ifs at h <;> simp_all
    · split_ifs at h <;> simp_all
  · rintro ⟨h1, h2, rfl⟩
    refine Or.inl (Or.inl (Or.inr ?_))
    rw [if_pos h1]
    simp [List.isEmpty_iff, h2]

theorem qualityWarn_mem_mri (df : Table) (r : ℚ) :
    Insight.qualityWarn r ∈ missingRateInsights df ↔
      rowCount df * df.length ≠ 0 ∧ 10 < missingRate df ∧
        r = missingRate df := by
  unfold missingRateInsights
  split_ifs with h1 h2 h3 <;> simp_all

theorem qualityGood_mem_mri (df : Table) (r : ℚ) :
    Insight.qualityGood r ∈ missingRateInsights df ↔
      rowCount df * df.length ≠ 0 ∧ ¬ 10 < missingRate df ∧
        missingRate df < 1 ∧ r = missingRate df := by
  unfold missingRateInsights
  split_ifs with h1 h2 h3 <;> simp_all

/-! ## Claim theorems: missing-rate step function (C6) -/

/-- C6 (confirmed): on a table with at least one cell (an empty table is an
upstream InputError; its float rate is NaN and the source emits nothing),
missing-rate insight emission is exactly a step function of the computed
rate: a quality warning is emitted iff the rate exceeds 10, a quality-good
insight iff the rate is below 1, and in the band [1, 10] neither missing-rate
insight appears. -/
theorem c6_missing_rate_step (df : Table) (ncols ccols dcols : List String)
    (h : rowCount df * df.length ≠ 0) :
    ((∃ r, Insight.qualityWarn r ∈
        suggest_analysis_insights df ncols ccols dcols) ↔
      10 < missingRate df) ∧
    ((∃ r, Insight.qualityGood r ∈
        suggest_analysis_insights df ncols ccols dcols) ↔
      missingRate df < 1) ∧
    (1 ≤ missingRate df → missingRate df ≤ 10 → ∀ r,
      Insight.qualityWarn r ∉ suggest_analysis_insights df ncols ccols dcols ∧
      Insight.qualityGood r ∉
        suggest_analysis_insights df ncols ccols dcols) := by
  refine ⟨?_, ?_, ?_⟩
  · constructor
    · rintro ⟨r, hr⟩
      exact ((qualityWarn_mem_mri df r).mp
        ((qualityWarn_mem_suggest df ncols ccols dcols r).mp hr)).2.1
    · intro hrate
      exact ⟨missingRate df, (qualityWarn_mem_suggest df ncols ccols dcols _).mpr
        ((qualityWarn_mem_mri df _).mpr ⟨h, hrate, rfl⟩)⟩
  · constructor
    · rintro ⟨r, hr⟩
      have := (qualityGood_mem_mri df r).mp
        ((qualityGood_mem_suggest df ncols ccols dcols r).mp hr)
      exact this.2.2.1
    · intro hrate
      refine ⟨missingRate df, (qualityGood_mem_suggest df ncols ccols dcols _).mpr
        ((qualityGood_mem_mri df _).mpr ⟨h, ?_, hrate, rfl⟩)⟩
      intro habs
      linarith
  · intro hlo hhi r
    constructor
    · intro hr
      have := ((qualityWarn_mem_mri df r).mp
        ((qualityWarn_mem_suggest df ncols ccols dcols r).mp hr)).2.1
      linarith
    · intro hr
      have := ((qualityGood_mem_mri df r).mp
        ((qualityGood_mem_suggest df ncols ccols dcols r).mp hr)).2.2.1
      linarith

/-- One numeric column with coefficient of variation above 1 and no missing
cells. -/
def exT1 : Table :=
  [⟨"v", Dtype.numeric, [Cell.num 1, Cell.num 10, Cell.num 100]⟩]

/-- C6 witness: the step function at a concrete table whose rate is 0. -/
theorem c6_witness :
    ((∃ r, Insight.qualityWarn r ∈
        suggest_analysis_insights exT1 ["v"] [] []) ↔
      10 < missingRate exT1) ∧
    ((∃ r, Insight.qualityGood r ∈
        suggest_analysis_insights exT1 ["v"] [] []) ↔
      missingRate exT1 < 1) ∧
    (1 ≤ missingRate exT1 → missingRate exT1 ≤ 10 → ∀ r,
      Insight.qualityWarn r ∉ suggest_analysis_insights exT1 ["v"] [] [] ∧
      Insight.qualityGood r ∉ suggest_analysis_insights exT1 ["v"] [] []) :=
  c6_missing_rate_step exT1 ["v"] [] [] (by decide)

/-! ## Claim theorems: rule independence and ordering (C1) -/

/-- Rule index of an insight, in the declaration order of the six rules
(warn and good are the two outcomes of the missing-rate rule). -/
def Insight.tag : Insight → ℕ
  | .qualityWarn _ => 0
  | .qualityGood _ => 1
  | .numericRichness _ => 2
  | .highVariance _ => 3
  | .categoricalRichness _ => 4
  | .lowCardinality _ => 5
  | .temporalPresence => 6

/-- C1 counterexample.  The claim says all six rules are evaluated
unconditionally, so a table with exactly one numeric column of coefficient of
variation above 1 still emits a high-variance insight.  In the code the
high-variance rule is nested inside `len(numeric_cols) >= 2`: the single
column qualifies, yet the full output holds only the quality-good insight. -/
theorem c1_counterexample :
    hvQualifies (colNums exT1 "v") = true ∧
    suggest_analysis_insights exT1 ["v"] [] [] = [Insight.qualityGood 0] := by
  refine ⟨?_, ?_⟩
  · show hvQualifies [1, 10, 100] = true
    norm_num [hvQualifies, sampleMean, sampleVar]
  · have hrate : missingRate exT1 = 0 := by
      unfold missingRate
      rw [show totalMissing exT1 = 0 from by decide,
        show rowCount exT1 * exT1.length = 3 from by decide]
      norm_num
    have hmri : missingRateInsights exT1 = [Insight.qualityGood 0] := by
      unfold missingRateInsights
      rw [if_neg (show ¬ rowCount exT1 * exT1.length = 0 from by decide),
        if_neg (show ¬ missingRate exT1 > 10 from by rw [hrate]; norm_num),
        if_pos (show missingRate exT1 < 1 from by rw [hrate]; norm_num), hrate]
    unfold suggest_analysis_insights
    rw [hmri,
      if_neg (show ¬ 2 ≤ (["v"] : List String).length from by decide),
      if_neg (show ¬ 1 ≤ ([] : List String).length from by decide),
      if_pos (show ([] : List String).isEmpty = true from rfl)]
    simp

/-- C1 (amended): insights are emitted in rule-declaration order (the tag
sequence of the output is a sublist of the canonical order) and named
columns follow the column order of the passed lists, which for
`detect_data_types` output follows the table's column order; but the rules
are not all evaluated unconditionally — the high-variance rule runs only
inside the numeric-richness gate `2 ≤ numeric count` (and low-cardinality
only inside the categorical gate), so one qualifying numeric column alone
emits no high-variance insight. -/
theorem c1_insight_order_and_gating (df : Table)
    (ncols ccols dcols : List String) :
    ((suggest_analysis_insights df ncols ccols dcols).map Insight.tag).Sublist
      [0, 1, 2, 3, 4, 5, 6] ∧
    ((∃ cols, Insight.highVariance cols ∈
        suggest_analysis_insights df ncols ccols dcols) ↔
      2 ≤ ncols.length ∧
        ncols.filter (fun c => hvQualifies (colNums df c)) ≠ []) ∧
    (∀ cols, Insight.highVariance cols ∈
        suggest_analysis_insights df ncols ccols dcols →
      cols = (ncols.filter (fun c => hvQualifies (colNums df c))).take 3) ∧
    (detect_data_types df).1.Sublist (df.map Col.name) := by
  refine ⟨?_, ?_, ?_, ?_⟩
  · show ((missingRateInsights df ++ _ ++ _ ++ _).map Insight.tag).Sublist
      (([0, 1] ++ [2, 3] ++ [4, 5] ++ [6] : List ℕ))
    rw [List.map_append, List.map_append, List.map_append]
    refine List.Sublist.append (List.Sublist.append (List.Sublist.append
      ?_ ?_) ?_) ?_
    · unfold missingRateInsights
      split_ifs <;> simp [Insight.tag] <;> decide
    · split_ifs <;>
        simp only [apply_ite (List.map Insight.tag), List.map_append,
          List.map_cons, List.map_nil, Insight.tag] <;>
        (try split_ifs) <;> decide
    · split_ifs <;>
        simp only [apply_ite (List.map Insight.tag), List.map_append,
          List.map_cons, List.map_nil, Insight.tag] <;>
        (try split_ifs) <;> decide
    · split_ifs <;> simp [Insight.tag]
  · constructor
    · rintro ⟨cols, hc⟩
      have := (highVariance_mem_suggest df ncols ccols dcols cols).mp hc
      exact ⟨this.1, this.2.1⟩
    · rintro ⟨h1, h2⟩
      exact ⟨_, (highVariance_mem_suggest df ncols ccols dcols _).mpr
        ⟨h1, h2, rfl⟩⟩
  · intro cols hc
    exact ((highVariance_mem_suggest df ncols ccols dcols cols).mp hc).2.2
  · exact List.Sublist.map Col.name (List.filter_sublist df)

/-- Two numeric columns, the first with coefficient of variation above 1. -/
def exT2 : Table :=
  [⟨"a", Dtype.numeric, [Cell.num 1, Cell.num 10, Cell.num 100]⟩,
   ⟨"b", Dtype.numeric, [Cell.num 1, Cell.num 2, Cell.num 3]⟩]

/-- C1 witness: with the numeric-richness gate satisfied, a high-variance
insight is emitted. -/
theorem c1_witness :
    ∃ cols, Insight.highVariance cols ∈
      suggest_analysis_insights exT2 ["a", "b"] [] [] :=
  (c1_insight_order_and_gating exT2 ["a", "b"] [] []).2.1.mpr
    ⟨by decide, by
      have ha : hvQualifies (colNums exT2 "a") = true := by
        show hvQualifies [1, 10, 100] = true
        norm_num [hvQualifies, sampleMean, sampleVar]
      simp [List.filter_cons, ha]⟩

/-! ## Claim theorems: high-variance rule (C3) -/

/-- Three numeric columns: zero mean with positive spread, negative mean with
absolute coefficient of variation above 1, and a calm positive column. -/
def exT3 : Table :=
  [⟨"v1", Dtype.numeric, [Cell.num (-1), Cell.num 0, Cell.num 1]⟩,
   ⟨"v2", Dtype.numeric, [Cell.num (-1), Cell.num (-10), Cell.num (-100)]⟩,
   ⟨"v3", Dtype.numeric, [Cell.num 1, Cell.num 2, Cell.num 3]⟩]

/-- C3 counterexample.  The claim says a column qualifies exactly when
`|std/mean| > 1` and that zero-mean columns are excluded.  In the code the
comparison is the signed `std/mean > 1` under float semantics: the zero-mean
column v1 qualifies (the quotient is `+inf`), while v2, whose absolute
coefficient of variation exceeds 1 but whose mean is negative, does not —
the emitted insight names v1 and omits v2. -/
theorem c3_counterexample :
    suggest_analysis_insights exT3 ["v1", "v2", "v3"] [] [] =
      [Insight.qualityGood 0, Insight.numericRichness 3,
        Insight.highVariance ["v1"]] := by
  have h1 : hvQualifies (colNums exT3 "v1") = true := by
    show hvQualifies [-1, 0, 1] = true
    norm_num [hvQualifies, sampleMean, sampleVar]
  have h2 : hvQualifies (colNums exT3 "v2") = false := by
    show hvQualifies [-1, -10, -100] = false
    norm_num [hvQualifies, sampleMean, sampleVar]
  have h3 : hvQualifies (colNums exT3 "v3") = false := by
    show hvQualifies [1, 2, 3] = false
    norm_num [hvQualifies, sampleMean, sampleVar]
  have hrate : missingRate exT3 = 0 := by
    unfold missingRate
    rw [show totalMissing exT3 = 0 from by decide,
      show rowCount exT3 * exT3.length = 9 from by decide]
    norm_num
  have hmri : missingRateInsights exT3 = [Insight.qualityGood 0] := by
    unfold missingRateInsights
    rw [if_neg (show ¬ rowCount exT3 * exT3.length = 0 from by decide),
      if_neg (show ¬ missingRate exT3 > 10 from by rw [hrate]; norm_num),
      if_pos (show missingRate exT3 < 1 from by rw [hrate]; norm_num), hrate]
  have hfil : (["v1", "v2", "v3"] : List String).filter
      (fun c => hvQualifies (colNums exT3 c)) = ["v1"] := by
    simp [List.filter_cons, h1, h2, h3]
  unfold suggest_analysis_insights
  rw [hmri,
    if_pos (show 2 ≤ (["v1", "v2", "v3"] : List String).length from by decide),
    hfil,
    if_neg (show ¬ 1 ≤ ([] : List String).length from by decide),
    if_pos (show ([] : List String).isEmpty = true from rfl)]
  simp

/-- C3 (amended): under the float semantics of `std/mean > 1`, a numeric
column qualifies iff it has at least 2 values, a nonnegative sample mean and
sample variance exceeding the square of the mean (for a positive mean this
is `|std/mean| > 1`; a zero-mean column with positive spread qualifies via an
infinite quotient rather than being excluded; a negative-mean column never
qualifies, however large `|std/mean|`); the emitted insight names the first
at most 3 qualifying columns in order. -/
theorem c3_high_variance_rule :
    (∀ xs : List ℚ, hvQualifies xs = true ↔
      2 ≤ xs.length ∧ 0 ≤ sampleMean xs ∧
        sampleMean xs * sampleMean xs < sampleVar xs) ∧
    (∀ (df : Table) (ncols ccols dcols cols : List String),
      Insight.highVariance cols ∈
          suggest_analysis_insights df ncols ccols dcols →
        cols = (ncols.filter (fun c => hvQualifies (colNums df c))).take 3 ∧
        cols.length ≤ 3) := by
  constructor
  · intro xs
    unfold hvQualifies
    split_ifs with h1 h2 h3
    · simp only [Bool.false_eq_true, false_iff]
      rintro ⟨h, -⟩
      omega
    · simp only [decide_eq_true_eq]
      constructor
      · intro hv
        exact ⟨by omega, le_of_lt h2, hv⟩
      · exact fun h => h.2.2
    · simp only [decide_eq_true_eq]
      rw [h3]
      constructor
      · intro hv
        exact ⟨by omega, le_refl 0, by simpa using hv⟩
      · intro h
        simpa using h.2.2
    · simp only [Bool.false_eq_true, false_iff]
      rintro ⟨-, hm, -⟩
      exact h3 (le_antisymm (not_lt.mp h2) hm)
  · intro df ncols ccols dcols cols hc
    have h := (highVariance_mem_suggest df ncols ccols dcols cols).mp hc
    refine ⟨h.2.2, ?_⟩
    rw [h.2.2]
    exact List.length_take_le 3 _

/-- C3 witness: the amended characterisation at a concrete column. -/
theorem c3_witness : hvQualifies [1, 10, 100] = true :=
  (c3_high_variance_rule.1 [1, 10, 100]).mpr
    ⟨by decide, by norm_num [sampleMean], by norm_num [sampleMean, sampleVar]⟩

/-! ## Helper lemmas for the correlation strong pairs (C9) -/
theorem mem_insertDesc (p x : CorrPair) (l : List CorrPair) :
    x ∈ insertDesc p l ↔ x = p ∨ x ∈ l := by
  induction l with
  | nil => simp [insertDesc]
  | cons q t ih =>
      unfold insertDesc
      split_ifs with h
      · simp only [List.mem_cons]
      · simp only [List.mem_cons, ih]
        tauto

theorem insertDesc_perm (p : CorrPair) (l : List CorrPair) :
    (insertDesc p l).Perm (p :: l) := by
  induction l with
  | nil => exact List.Perm.refl _
  | cons q t ih =>
      unfold insertDesc
      split_ifs with h
      · exact List.Perm.refl _
      · exact List.Perm.trans (List.Perm.cons q ih) (List.Perm.swap p q t)

theorem sortDesc_perm (l : List CorrPair) : (sortDesc l).Perm l := by
  induction l with
  | nil => exact List.Perm.refl _
  | cons p t ih =>
      exact List.Perm.trans (insertDesc_perm p (sortDesc t))
        (List.Perm.cons p ih)

theorem pairwise_insertDesc (p : CorrPair) (l : List CorrPair)
    (h : l.Pairwise (fun a b => |b.signedSq| ≤ |a.signedSq|)) :
    (insertDesc p l).Pairwise (fun a b => |b.signedSq| ≤ |a.signedSq|) := by
  induction l with
  | nil => simp [insertDesc]
  | cons q t ih =>
      rw [List.pairwise_cons] at h
      obtain ⟨hq, ht⟩ := h
      unfold insertDesc
      split_ifs with hle
      · rw [List.pairwise_cons]
        refine ⟨?_, List.pairwise_cons.mpr ⟨hq, ht⟩⟩
        intro x hx
        rcases List.mem_cons.mp hx with rfl | hx
        · exact hle
        · exact le_trans (hq x hx) hle
      · rw [List.pairwise_cons]
        refine ⟨?_, ih ht⟩
        intro x hx
        rcases (mem_insertDesc p x t).mp hx with rfl | hx
        · exact le_of_not_le hle
        · exact hq x hx

theorem sortDesc_pairwise (l : List CorrPair) :
    (sortDesc l).Pairwise (fun a b => |b.signedSq| ≤ |a.signedSq|) := by
  induction l with
  | nil => simp [sortDesc]
  | cons p t ih => exact pairwise_insertDesc p (sortDesc t) ih

theorem mem_pairedVals {df : Table} {a b : String} {x y : ℚ}
    (h : (x, y) ∈ pairedVals df a b) :
    x ∈ colNums df a ∧ y ∈ colNums df b := by
  unfold pairedVals at h
  obtain ⟨⟨cx, cy⟩, hmem, heq⟩ := List.mem_filterMap.mp h
  have hx := (List.of_mem_zip hmem).1
  have hy := (List.of_mem_zip hmem).2
  cases cx <;> cases cy <;> simp [Cell.numOf] at heq
  obtain ⟨rfl, rfl⟩ := heq
  constructor
  · exact List.mem_filterMap.mpr ⟨_, hx, rfl⟩
  · exact List.mem_filterMap.mpr ⟨_, hy, rfl⟩

theorem sum_const_of_all_eq {l : List ℚ} {k : ℚ} (h : ∀ x ∈ l, x = k) :
    l.sum = l.length * k := by
  induction l with
  | nil => simp
  | cons x t ih =>
      have hx : x = k := h x (List.mem_cons_self x t)
      have ht : ∀ y ∈ t, y = k := fun y hy => h y (List.mem_cons_of_mem x hy)
      rw [List.sum_cons, ih ht, hx, List.length_cons]
      push_cast
      ring

theorem sum_sq_const_of_all_eq {l : List ℚ} {k : ℚ} (h : ∀ x ∈ l, x = k) :
    (l.map (fun x => x * x)).sum = l.length * (k * k) := by
  have h2 : ∀ y ∈ l.map (fun x => x * x), y = k * k := by
    intro y hy
    obtain ⟨x, hx, rfl⟩ := List.mem_map.mp hy
    rw [h x hx]
  rw [sum_const_of_all_eq h2, List.length_map]

theorem varxN_eq_zero {ps : List (ℚ × ℚ)}
    (h : ∀ x ∈ ps.map Prod.fst, ∀ y ∈ ps.map Prod.fst, x = y) :
    varxN ps = 0 := by
  cases hp : ps with
  | nil => simp [varxN]
  | cons p t =>
      subst hp
      have hk : ∀ x ∈ (p :: t).map Prod.fst, x = p.1 := fun x hx =>
        h x hx p.1 (List.mem_map.mpr ⟨p, List.mem_cons_self p t, rfl⟩)
      unfold varxN
      have e1 : ((p :: t).map Prod.fst).sum = ((p :: t).length : ℚ) * p.1 := by
        rw [sum_const_of_all_eq hk, List.length_map]
      have e2 : ((p :: t).map (fun q => q.1 * q.1)).sum =
          ((p :: t).length : ℚ) * (p.1 * p.1) := by
        have : (p :: t).map (fun q => q.1 * q.1) =
            ((p :: t).map Prod.fst).map (fun x => x * x) := by
          rw [List.map_map]; rfl
        rw [this, sum_sq_const_of_all_eq hk, List.length_map]
      rw [e1, e2]
      ring

theorem varyN_eq_zero {ps : List (ℚ × ℚ)}
    (h : ∀ x ∈ ps.map Prod.snd, ∀ y ∈ ps.map Prod.snd, x = y) :
    varyN ps = 0 := by
  cases hp : ps with
  | nil => simp [varyN]
  | cons p t =>
      subst hp
      have hk : ∀ x ∈ (p :: t).map Prod.snd, x = p.2 := fun x hx =>
        h x hx p.2 (List.mem_map.mpr ⟨p, List.mem_cons_self p t, rfl⟩)
      unfold varyN
      have e1 : ((p :: t).map Prod.snd).sum = ((p :: t).length : ℚ) * p.2 := by
        rw [sum_const_of_all_eq hk, List.length_map]
      have e2 : ((p :: t).map (fun q => q.2 * q.2)).sum =
          ((p :: t).length : ℚ) * (p.2 * p.2) := by
        have : (p :: t).map (fun q => q.2 * q.2) =
            ((p :: t).map Prod.snd).map (fun x => x * x) := by
          rw [List.map_map]; rfl
        rw [this, sum_sq_const_of_all_eq hk, List.length_map]
      rw [e1, e2]
      ring

/-- C9 (confirmed): the strong-pairs result is empty when fewer than 2
numeric columns exist; it is a permutation of exactly the `i < j` column
pairs whose absolute Pearson coefficient exceeds 0.5 (encoded by the signed
square `sign(r)·r²`, with pairs of undefined coefficient excluded); it is
arranged in descending absolute coefficient; and a numeric column whose
values are all equal (zero variance) appears in no pair. -/
theorem c9_strong_pairs (df : Table) (cols : List String) :
    (cols.length < 2 → corr_pairs df cols = []) ∧
    (corr_pairs df cols).Perm
      ((ordPairs cols).filterMap (fun p => strongPair df p.1 p.2)) ∧
    (corr_pairs df cols).Pairwise (fun a b => |b.signedSq| ≤ |a.signedSq|) ∧
    (∀ z, allEqualQ (colNums df z) →
      ∀ p ∈ corr_pairs df cols, p.colA ≠ z ∧ p.colB ≠ z) := by
  refine ⟨?_, ?_, ?_, ?_⟩
  · intro h; unfold corr_pairs; rw [if_pos h]
  · unfold corr_pairs
    split_ifs with h
    · have he : ordPairs cols = [] := by
        cases cols with
        | nil => rfl
        | cons x t =>
            cases t with
            | nil => rfl
            | cons y u => simp at h; omega
      rw [he]
      exact List.Perm.refl _
    · exact sortDesc_perm _
  · unfold corr_pairs
    split_ifs with h
    · exact List.Pairwise.nil
    · exact sortDesc_pairwise _
  · intro z hz p hp
    unfold corr_pairs at hp
    split_ifs at hp with h
    · simp at hp
    · have hp2 : p ∈ (ordPairs cols).filterMap
          (fun q => strongPair df q.1 q.2) := (sortDesc_perm _).subset hp
      obtain ⟨⟨a, b⟩, hab, heq⟩ := List.mem_filterMap.mp hp2
      simp only [strongPair] at heq
      split_ifs at heq with hcond
      · rw [Option.some.injEq] at heq
        subst heq
        constructor
        · intro haz
          rw [show (CorrPair.mk a b _).colA = a from rfl] at haz
          subst haz
          obtain ⟨hvx, -, -⟩ := hcond
          have hzero : varxN (pairedVals df a b) = 0 := by
            apply varxN_eq_zero
            intro x hx y hy
            obtain ⟨⟨x1, x2⟩, hx1, rfl⟩ := List.mem_map.mp hx
            obtain ⟨⟨y1, y2⟩, hy1, rfl⟩ := List.mem_map.mp hy
            exact hz _ (mem_pairedVals hx1).1 _ (mem_pairedVals hy1).1
          rw [hzero] at hvx
          exact absurd hvx (by norm_num)
        · intro hbz
          rw [show (CorrPair.mk a b _).colB = b from rfl] at hbz
          subst hbz
          obtain ⟨-, hvy, -⟩ := hcond
          have hzero : varyN (pairedVals df a b) = 0 := by
            apply varyN_eq_zero
            intro x hx y hy
            obtain ⟨⟨x1, x2⟩, hx1, rfl⟩ := List.mem_map.mp hx
            obtain ⟨⟨y1, y2⟩, hy1, rfl⟩ := List.mem_map.mp hy
            exact hz _ (mem_pairedVals hx1).2 _ (mem_pairedVals hy1).2
          rw [hzero] at hvy
          exact absurd hvy (by norm_num)

/-- Two perfectly correlated columns and one constant column. -/
def exT9 : Table :=
  [⟨"x", Dtype.numeric, [Cell.num 1, Cell.num 2, Cell.num 3, Cell.num 4]⟩,
   ⟨"y", Dtype.numeric, [Cell.num 10, Cell.num 20, Cell.num 30, Cell.num 40]⟩,
   ⟨"z", Dtype.numeric, [Cell.num 5, Cell.num 5, Cell.num 5, Cell.num 5]⟩]

/-- C9 witness: the constant column of a concrete table is excluded from
every strong pair. -/
theorem c9_witness :
    allEqualQ (colNums exT9 "z") ∧
    ∀ p ∈ corr_pairs exT9 ["x", "y", "z"], p.colA ≠ "z" ∧ p.colB ≠ "z" :=
  ⟨by decide, (c9_strong_pairs exT9 ["x", "y", "z"]).2.2.2 "z" (by decide)⟩

/-! ## Claim theorems: TrendProjector (C2, modelled from the spec) -/
theorem projectGroup_eligible {b t : ℤ} {g : String × List (ℤ × ℚ)}
    (h : eligibleGroup g = true) :
    ∃ p, projectGroup b t g = some p ∧ p.key = g.1 ∧
      0 ≤ p.targetValue ∧ p.targetValue ≤ 100 := by
  simp only [projectGroup]
  rw [if_pos h]
  have hle : (0 : ℚ) ≤ 100 := by norm_num
  split
  · split_ifs with hz
    · exact ⟨_, rfl, rfl, le_max_left _ _, max_le hle (min_le_left _ _)⟩
    · exact ⟨_, rfl, rfl, le_max_left _ _, max_le hle (min_le_left _ _)⟩
  · exact ⟨_, rfl, rfl, le_max_left _ _, max_le hle (min_le_left _ _)⟩

theorem projectGroup_not_eligible {b t : ℤ} {g : String × List (ℤ × ℚ)}
    (h : ¬ eligibleGroup g = true) :
    projectGroup b t g = none := by
  unfold projectGroup
  rw [if_neg h]

/-- C2 (confirmed, spec-modelled): the TrendProjector returns exactly one
Projection per eligible group, in order (the keys of the output are the keys
of the groups passing the eligibility filter); every projected target value
lies in [0, 100] after clamping; and a group is eligible iff it has at least
3 observed points and not all of its years coincide — groups failing either
test are silently excluded. -/
theorem c2_trend_projection (gs : List (String × List (ℤ × ℚ))) (b t : ℤ) :
    ((trendProject gs b t).map Projection.key =
      (gs.filter eligibleGroup).map Prod.fst) ∧
    (∀ p ∈ trendProject gs b t, 0 ≤ p.targetValue ∧ p.targetValue ≤ 100) ∧
    (∀ g : String × List (ℤ × ℚ), eligibleGroup g = true ↔
      3 ≤ g.2.length ∧ allSameYears g.2 = false) := by
  refine ⟨?_, ?_, ?_⟩
  · induction gs with
    | nil => rfl
    | cons g tl ih =>
        by_cases he : eligibleGroup g = true
        · obtain ⟨p, hp, hk, -, -⟩ := projectGroup_eligible (b := b) (t := t) he
          unfold trendProject at ih ⊢
          rw [List.filterMap_cons, hp, List.filter_cons, if_pos he]
          simp only [List.map_cons, ih, hk]
        · unfold trendProject at ih ⊢
          rw [List.filterMap_cons, projectGroup_not_eligible he,
            List.filter_cons, if_neg he]
          exact ih
  · intro p hp
    unfold trendProject at hp
    obtain ⟨g, hg, heq⟩ := List.mem_filterMap.mp hp
    by_cases he : eligibleGroup g = true
    · obtain ⟨p2, hp2, -, h0, h100⟩ := projectGroup_eligible (b := b) (t := t) he
      rw [hp2, Option.some.injEq] at heq
      rw [← heq]
      exact ⟨h0, h100⟩
    · rw [projectGroup_not_eligible he] at heq
      simp at heq
  · intro g
    unfold eligibleGroup
    simp [Bool.and_eq_true, Bool.not_eq_true']

/-- One group of three points, years 2000..2010 (spec Scenario D data). -/
def exG : List (String × List (ℤ × ℚ)) :=
  [("X", [((2000 : ℤ), (20 : ℚ)), (2005, 22), (2010, 24)])]

/-- C2 witness: the projector at the concrete series of spec Scenario D. -/
theorem c2_witness :
    (trendProject exG 2000 2040).map Projection.key =
      (exG.filter eligibleGroup).map Prod.fst ∧
    ∀ p ∈ trendProject exG 2000 2040,
      0 ≤ p.targetValue ∧ p.targetValue ≤ 100 :=
  ⟨(c2_trend_projection exG 2000 2040).1, (c2_trend_projection exG 2000 2040).2.1⟩

end Consus
